import Mathlib

/-!
Shallow embedding of `src/main.py` of the `emailer` repository: a token-based
credential session broker (issuance, hashed lookup, encrypted-at-rest storage,
lazy TTL expiry) together with a bulk dispatch engine (fan-out send loop with
per-attempt failure accounting, fixed pacing, and fail-fast on authentication
loss).

External collaborators are modelled as parameters of the embedded functions:
the Fernet cipher by an encrypt/decrypt pair carrying the library's round-trip
contract, the SHA-256 token digest by an arbitrary string function, each SMTP
delivery attempt by its observable outcome, and the MongoDB metrics sink by a
connected flag plus a does-the-update-raise flag.  Timestamps are integers
(seconds); every clock read inside a single handler call is modelled as the
same instant `now`.
-/

namespace Emailer

/-- Status code plus detail string, as carried by fastapi's HTTPException. -/
structure HTTPException where
  statusCode : Nat
  detail : String
deriving DecidableEq, Repr

/-- Symmetric cipher (cryptography.fernet.Fernet, main.py lines 24-25 and
64-69): modelled abstractly by its encrypt/decrypt functions together with the
library contract that decryption inverts encryption under the same key. -/
structure Cipher where
  encrypt : String → String
  decrypt : String → String
  roundtrip : ∀ s, decrypt (encrypt s) = s

/-- Value stored in `_tokens` for one session (main.py lines 418-425). -/
structure SessionData where
  email : String
  password : String
  smtp_host : String
  smtp_port : Nat
  created_at : Int
  expires_at : Int
deriving DecidableEq, Repr

/-- The global `_tokens: dict[str, dict]` (main.py line 26), modelled
pointwise as a partial map from lookup keys to sessions. -/
def TokenStore : Type := String → Option SessionData

/-- Dict assignment `_tokens[token_hash] = data` (main.py line 418). -/
def storeInsert (store : TokenStore) (k : String) (v : SessionData) : TokenStore :=
  fun x => if x = k then some v else store x

/-- Dict deletion `del _tokens[token_hash]` (main.py line 147). -/
def storeDelete (store : TokenStore) (k : String) : TokenStore :=
  fun x => if x = k then none else store x

/-- The sweep `_cleanup_expired_tokens` (main.py lines 57-61): every entry
whose `expires_at` is strictly before `now` is deleted. -/
def cleanupExpired (store : TokenStore) (now : Int) : TokenStore :=
  fun x =>
    match store x with
    | none => none
    | some d => if d.expires_at < now then none else some d

/-- The constant `TOKEN_EXPIRY_HOURS = 1` (main.py line 27). -/
def TOKEN_EXPIRY_HOURS : Int := 1

/-- Seconds in `timedelta(hours=TOKEN_EXPIRY_HOURS)` (main.py line 416). -/
def tokenExpiryDelta : Int := 3600 * TOKEN_EXPIRY_HOURS

/-- Observable effect of one `increment_metric` call on the metrics sink. -/
inductive MetricEvent
  | updated (field : String) (amount : Int)
  | errorLogged (field : String)
deriving DecidableEq, Repr

/-- The `increment_metric` coroutine (main.py lines 72-80): if `_db` is
connected it attempts the update; a raising sink is caught and logged, never
propagated.  `dbConnected` models `_db is not None`; `sinkFails` models
whether the motor `update_one` call raises. -/
def increment_metric (dbConnected sinkFails : Bool) (field : String) (amount : Int) :
    List MetricEvent :=
  if dbConnected then
    if sinkFails then [MetricEvent.errorLogged field] else [MetricEvent.updated field amount]
  else []

/-- Request body of `/auth` (main.py lines 97-101); the EmailStr format check
is external validation and addresses are modelled as plain strings. -/
structure AuthRequest where
  email : String
  password : String
  smtp_host : String
  smtp_port : Nat
deriving DecidableEq, Repr

/-- Response body of `/auth` (main.py lines 104-107). -/
structure AuthResponse where
  token : String
  expires_in_hours : Int
  message : String
deriving DecidableEq, Repr

/-- Outcome of the credential-probe `smtp.login` in `/auth` (main.py lines
391-412), one constructor per `except` arm. -/
inductive LoginResult
  | success
  | authFailure (msg : String)
  | smtpFailure (msg : String)
  | otherFailure (msg : String)
deriving DecidableEq, Repr

/-- Result of one `/auth` call: the updated token store, the HTTP response,
and the metric events emitted. -/
structure AuthOutcome where
  store : TokenStore
  response : Except HTTPException AuthResponse
  metricEvents : List MetricEvent

/-- The `/auth` handler `authenticate` (main.py lines 364-435).  The fresh
token from `secrets.token_urlsafe(32)` is the parameter `token`; the SHA-256
digest `_hash_token` is the parameter `hashToken`; both clock reads (lines 416
and 423) are the single instant `now`. -/
def authenticate (dbConnected sinkFails : Bool) (c : Cipher) (hashToken : String → String)
    (store : TokenStore) (req : AuthRequest) (login : LoginResult) (token : String)
    (now : Int) : AuthOutcome :=
  match login with
  | .authFailure _ =>
      ⟨store, .error ⟨401, "Invalid email or password. For Gmail, use an App Password."⟩, []⟩
  | .smtpFailure m =>
      ⟨store, .error ⟨400, "SMTP connection failed: " ++ m⟩, []⟩
  | .otherFailure m =>
      ⟨store, .error ⟨500, "Connection error: " ++ m⟩, []⟩
  | .success =>
      let token_hash := hashToken token
      let expires := now + tokenExpiryDelta
      let data : SessionData :=
        { email := c.encrypt req.email
          password := c.encrypt req.password
          smtp_host := req.smtp_host
          smtp_port := req.smtp_port
          created_at := now
          expires_at := expires }
      ⟨storeInsert store token_hash data,
       .ok ⟨token, TOKEN_EXPIRY_HOURS,
            "Authentication successful. Use this token in X-Token header."⟩,
       increment_metric dbConnected sinkFails "tokens_issued" 1⟩

/-- Decrypted credential dict returned by `get_smtp_creds` (main.py lines
150-155). -/
structure SmtpCreds where
  email : String
  password : String
  smtp_host : String
  smtp_port : Nat
deriving DecidableEq, Repr

/-- Result of one `get_smtp_creds` call: the token store after the sweep and
any lazy deletion, plus the returned credentials or the raised exception. -/
structure ResolveOutcome where
  store : TokenStore
  result : Except HTTPException SmtpCreds

/-- The resolver `get_smtp_creds` (main.py lines 133-155): sweep first, then
hashed lookup; absence raises 401 "Invalid or expired token", an expired entry
is deleted and raises 401 "Token expired", otherwise the stored ciphertexts
are decrypted and returned with the bound relay endpoint.  Both clock reads
(inside the sweep and on line 146) are the single instant `now`. -/
def get_smtp_creds (c : Cipher) (hashToken : String → String) (store : TokenStore)
    (token : String) (now : Int) : ResolveOutcome :=
  let store := cleanupExpired store now
  let token_hash := hashToken token
  match store token_hash with
  | none => ⟨store, .error ⟨401, "Invalid or expired token. Use /auth first."⟩⟩
  | some data =>
      if data.expires_at < now then
        ⟨storeDelete store token_hash, .error ⟨401, "Token expired. Re-authenticate."⟩⟩
      else
        ⟨store, .ok ⟨c.decrypt data.email, c.decrypt data.password,
                     data.smtp_host, data.smtp_port⟩⟩

/-- Observable outcome of one `send_email` call inside the `/send` loop
(main.py lines 468-487): success, `smtplib.SMTPAuthenticationError`, or any
other exception. -/
inductive Outcome
  | ok
  | authLost
  | transportFail
deriving DecidableEq, Repr

/-- Local state of the `/send` loop: the `sent` and `failed` counters of
main.py lines 455-456, plus instrumentation counting how many `send_email`
calls and how many `time.sleep(1)` calls have been made. -/
structure LoopState where
  sent : Nat
  failed : Nat
  attempts : Nat
  sleeps : Nat
deriving DecidableEq, Repr

/-- Loop state at entry to the `/send` loop. -/
def initState : LoopState := ⟨0, 0, 0, 0⟩

/-- One `send_email` call plus the surrounding `try/except` (main.py lines
467-487).  The transport is the function `outcome`, indexed by the number of
attempts already made; `Outcome.authLost` is re-raised (modelled as `.error`
carrying the state at the raise), any other exception bumps `failed`. -/
def runAttempt (outcome : Nat → Outcome) (st : LoopState) : Except LoopState LoopState :=
  match outcome st.attempts with
  | .ok => .ok { st with sent := st.sent + 1, attempts := st.attempts + 1 }
  | .authLost => .error { st with attempts := st.attempts + 1 }
  | .transportFail => .ok { st with failed := st.failed + 1, attempts := st.attempts + 1 }

/-- Inner loop `for i in range(repeat_count)` of `/send` (main.py lines
466-490), by recursion on the number of iterations still to run: when `m + 1`
iterations remain, the current one is `i = repeat_count - (m + 1)`, so the
pacing guard `i < repeat_count - 1` of line 489 is exactly `0 < m`; the
guard's second disjunct `recipient != recipients[-1]` compares the current
recipient with the last list element by value. -/
def sendInner (outcome : Nat → Outcome) (lastR r : String) :
    Nat → LoopState → Except LoopState LoopState
  | 0, st => .ok st
  | m + 1, st => do
    let st ← runAttempt outcome st
    let st := if 0 < m ∨ r ≠ lastR then { st with sleeps := st.sleeps + 1 } else st
    sendInner outcome lastR r m st

/-- Outer loop `for recipient in recipients` of `/send` (main.py line 465). -/
def sendOuter (outcome : Nat → Outcome) (lastR : String) (repeatCount : Nat) :
    List String → LoopState → Except LoopState LoopState
  | [], st => .ok st
  | r :: rest, st => do
    let st ← sendInner outcome lastR r repeatCount st
    sendOuter outcome lastR repeatCount rest st

/-- Python's `recipients[-1]`, only consulted while the recipient list is
non-empty (the loop body never runs on an empty list). -/
def lastRecipient (recipients : List String) : String :=
  (recipients.getLast?).getD ""

/-- The whole `/send` fan-out loop (main.py lines 465-490) from the initial
counters. -/
def runSend (outcome : Nat → Outcome) (recipients : List String) (repeatCount : Nat) :
    Except LoopState LoopState :=
  sendOuter outcome (lastRecipient recipients) repeatCount recipients initState

/-- Response body of `/send` (main.py lines 127-131). -/
structure SendResponse where
  sent : Nat
  failed : Nat
  success : Bool
  message : String
deriving DecidableEq, Repr

/-- The f-string of main.py line 500. -/
def sendMessage (sent failed : Nat) : String :=
  "Sent " ++ toString sent ++ "/" ++ toString (sent + failed) ++ " emails successfully."

/-- The `SendResponse(...)` built on main.py lines 496-501. -/
def sendResponseOf (st : LoopState) : SendResponse :=
  { sent := st.sent
    failed := st.failed
    success := st.failed == 0
    message := sendMessage st.sent st.failed }

/-- The `/send` handler after credential resolution (main.py lines 455-501):
run the loop; an `SMTPAuthenticationError` abort surfaces as the 401 raised on
lines 481-484, otherwise the metric is bumped when `sent > 0` and the summary
is returned. -/
def sendEndpoint (dbConnected sinkFails : Bool) (outcome : Nat → Outcome)
    (recipients : List String) (repeatCount : Nat) :
    Except HTTPException SendResponse × List MetricEvent :=
  match runSend outcome recipients repeatCount with
  | .error _ =>
      (.error ⟨401, "SMTP authentication failed. Your token may be invalid."⟩, [])
  | .ok st =>
      (.ok (sendResponseOf st),
       if 0 < st.sent then increment_metric dbConnected sinkFails "emails_sent" st.sent else [])

/-- Validated form of the `/send` request body (main.py lines 110-125),
restricted to the fields that drive the dispatch loop; cc, bcc, reply_to and
is_html are passed through to the transport, which is abstracted by
`outcome`. -/
structure SendRequest where
  recipients : List String
  subject : String
  body : String
  repeat_count : Nat
deriving DecidableEq, Repr

/-- The `mode="before"` field validator `normalize_recipients` (main.py lines
120-125): a bare string becomes a one-element list. -/
def normalize_recipients (v : Sum String (List String)) : List String :=
  match v with
  | .inl s => [s]
  | .inr l => l

/-- Pydantic's validation of a `SendRequest` (main.py lines 110-125): subject
length in [1, 998], body length at least 1, repeat_count in [1, 50]; the
recipients union is normalized.  The EmailStr format check is external and
addresses are plain strings. -/
def validateSendRequest (recipients : Sum String (List String)) (subject body : String)
    (repeat_count : Int) : Except String SendRequest :=
  if subject.length < 1 then .error "validation error: subject too short"
  else if 998 < subject.length then .error "validation error: subject too long"
  else if body.length < 1 then .error "validation error: body too short"
  else if repeat_count < 1 then .error "validation error: repeat_count below 1"
  else if 50 < repeat_count then .error "validation error: repeat_count above 50"
  else .ok ⟨normalize_recipients recipients, subject, body, repeat_count.toNat⟩

/-- Full `/send` pipeline for a raw request body: framework validation, then
the handler.  A validation error is rejected before the handler (and hence
before any transport activity) runs. -/
def dispatch (dbConnected sinkFails : Bool) (outcome : Nat → Outcome)
    (recipients : Sum String (List String)) (subject body : String) (repeat_count : Int) :
    Except String (Except HTTPException SendResponse × List MetricEvent) :=
  (validateSendRequest recipients subject body repeat_count).map
    (fun req => sendEndpoint dbConnected sinkFails outcome req.recipients req.repeat_count)

/-- Final loop state, whether the loop completed or aborted. -/
def loopResult : Except LoopState LoopState → LoopState
  | .ok st => st
  | .error st => st

/-- Whether the loop aborted by re-raising an authentication failure. -/
def isAborted : Except LoopState LoopState → Bool
  | .ok _ => false
  | .error _ => true

/-- Whether the full pipeline rejected the request at validation. -/
def isValidationError :
    Except String (Except HTTPException SendResponse × List MetricEvent) → Bool
  | .error _ => true
  | .ok _ => false

/-- Number of indices `j` in `[a, a + n)` with `p (outcome j)`. -/
def countO (p : Outcome → Bool) (outcome : Nat → Outcome) : Nat → Nat → Nat
  | _, 0 => 0
  | a, n + 1 => (if p (outcome a) then 1 else 0) + countO p outcome (a + 1) n

/-- Recognizer for successful attempts. -/
def okB : Outcome → Bool
  | .ok => true
  | _ => false

/-- Recognizer for transient transport failures. -/
def failB : Outcome → Bool
  | .transportFail => true
  | _ => false

/-- Number of successful attempts among attempts `a, ..., a + n - 1`. -/
def countOk (outcome : Nat → Outcome) (a n : Nat) : Nat := countO okB outcome a n

/-- Number of transient failures among attempts `a, ..., a + n - 1`. -/
def countFail (outcome : Nat → Outcome) (a n : Nat) : Nat := countO failB outcome a n

/-- Pacing sleeps made by one recipient's completed inner loop of `n`
repetitions: every repetition is followed by a sleep except the last one of a
recipient equal (by value) to `recipients[-1]`. -/
def innerSleeps (lastR r : String) (n : Nat) : Nat :=
  if r = lastR then n - 1 else n

/-- Pacing sleeps made by a completed batch over the given recipients. -/
def outerSleeps (lastR : String) (rc : Nat) : List String → Nat
  | [] => 0
  | r :: rest => innerSleeps lastR r rc + outerSleeps lastR rc rest

/-- Number of occurrences of `a` in a list of recipients. -/
def occCount (a : String) : List String → Nat
  | [] => 0
  | b :: l => (if b = a then 1 else 0) + occCount a l

/-! Helper lemmas about the counting functions. -/

theorem countO_add (p : Outcome → Bool) (outcome : Nat → Outcome) :
    ∀ (m : Nat) (a n : Nat),
      countO p outcome a (m + n) = countO p outcome a m + countO p outcome (a + m) n := by
  intro m
  induction m with
  | zero =>
      intro a n
      simp [countO]
  | succ m ih =>
      intro a n
      have hsum : m + 1 + n = (m + n) + 1 := by omega
      rw [hsum]
      simp only [countO]
      rw [ih (a + 1) n]
      have harg : a + 1 + m = a + (m + 1) := by omega
      rw [harg]
      omega

theorem countO_ok_fail_total (outcome : Nat → Outcome) :
    ∀ (n a : Nat),
      (∀ j, a ≤ j → j < a + n → outcome j ≠ Outcome.authLost) →
      countO okB outcome a n + countO failB outcome a n = n := by
  intro n
  induction n with
  | zero => intro a _; simp [countO]
  | succ n ih =>
      intro a H
      simp only [countO]
      have hrec := ih (a + 1) (fun j hj hj' => H j (by omega) (by omega))
      have ha := H a (by omega) (by omega)
      cases ho : outcome a with
      | ok => simp [okB, failB, ho]; omega
      | authLost => exact absurd ho ha
      | transportFail => simp [okB, failB, ho]; omega

theorem countO_all_ok (outcome : Nat → Outcome) :
    ∀ (n a : Nat),
      (∀ j, a ≤ j → j < a + n → outcome j = Outcome.ok) →
      countO okB outcome a n = n ∧ countO failB outcome a n = 0 := by
  intro n
  induction n with
  | zero => intro a _; simp [countO]
  | succ n ih =>
      intro a H
      have ha := H a (by omega) (by omega)
      have hrec := ih (a + 1) (fun j hj hj' => H j (by omega) (by omega))
      simp only [countO, ha]
      simp [okB, failB]
      omega

theorem occCount_le_length (a : String) : ∀ l : List String, occCount a l ≤ l.length := by
  intro l
  induction l with
  | nil => simp [occCount]
  | cons b l ih =>
      simp only [occCount, List.length_cons]
      by_cases hb : b = a <;> simp [hb] <;> omega

theorem outerSleeps_eq (lastR : String) (rc : Nat) (hrc : 1 ≤ rc) :
    ∀ l : List String, outerSleeps lastR rc l = l.length * rc - occCount lastR l := by
  intro l
  induction l with
  | nil => simp [outerSleeps, occCount]
  | cons b l ih =>
      have hocc := occCount_le_length lastR l
      have hlen : l.length ≤ l.length * rc := Nat.le_mul_of_pos_right _ (by omega)
      simp only [outerSleeps, occCount, innerSleeps, List.length_cons, ih, Nat.succ_mul]
      by_cases hb : b = lastR <;> simp [hb] <;> omega

/-! Characterization of the inner and outer dispatch loops. -/

theorem sendInner_no_auth (outcome : Nat → Outcome) (lastR r : String) :
    ∀ (n : Nat) (st : LoopState),
      (∀ j, st.attempts ≤ j → j < st.attempts + n → outcome j ≠ Outcome.authLost) →
      sendInner outcome lastR r n st =
        Except.ok { sent := st.sent + countOk outcome st.attempts n,
                    failed := st.failed + countFail outcome st.attempts n,
                    attempts := st.attempts + n,
                    sleeps := st.sleeps + innerSleeps lastR r n } := by
  intro n
  induction n with
  | zero =>
      intro st _
      simp [sendInner, countOk, countFail, countO, innerSleeps]
  | succ n ih =>
      intro st H
      have ha := H st.attempts (by omega) (by omega)
      have H' : ∀ j, st.attempts + 1 ≤ j → j < st.attempts + 1 + n →
          outcome j ≠ Outcome.authLost :=
        fun j hj hj' => H j (by omega) (by omega)
      cases ho : outcome st.attempts with
      | authLost => exact absurd ho ha
      | ok =>
          simp only [sendInner, runAttempt, ho, bind, Except.bind]
          by_cases hcond : 0 < n ∨ r ≠ lastR
          · rw [if_pos hcond, ih _ H']
            by_cases hr : r = lastR
            · have hn : 0 < n := by
                rcases hcond with h | h
                · exact h
                · exact absurd hr h
              simp [countOk, countFail, countO, ho, okB, failB, innerSleeps, hr] <;> omega
            · simp [countOk, countFail, countO, ho, okB, failB, innerSleeps, hr] <;> omega
          · rw [if_neg hcond]
            push_neg at hcond
            obtain ⟨hn, hr⟩ := hcond
            have hn0 : n = 0 := by omega
            subst hn0
            simp [sendInner, countOk, countFail, countO, ho, okB, failB, innerSleeps, hr] <;>
              omega
      | transportFail =>
          simp only [sendInner, runAttempt, ho, bind, Except.bind]
          by_cases hcond : 0 < n ∨ r ≠ lastR
          · rw [if_pos hcond, ih _ H']
            by_cases hr : r = lastR
            · have hn : 0 < n := by
                rcases hcond with h | h
                · exact h
                · exact absurd hr h
              simp [countOk, countFail, countO, ho, okB, failB, innerSleeps, hr] <;> omega
            · simp [countOk, countFail, countO, ho, okB, failB, innerSleeps, hr] <;> omega
          · rw [if_neg hcond]
            push_neg at hcond
            obtain ⟨hn, hr⟩ := hcond
            have hn0 : n = 0 := by omega
            subst hn0
            simp [sendInner, countOk, countFail, countO, ho, okB, failB, innerSleeps, hr] <;>
              omega

theorem sendInner_auth_abort (outcome : Nat → Outcome) (lastR r : String) :
    ∀ (n k : Nat) (st : LoopState), k < n →
      (∀ j, st.attempts ≤ j → j < st.attempts + k → outcome j ≠ Outcome.authLost) →
      outcome (st.attempts + k) = Outcome.authLost →
      sendInner outcome lastR r n st =
        Except.error { sent := st.sent + countOk outcome st.attempts k,
                       failed := st.failed + countFail outcome st.attempts k,
                       attempts := st.attempts + k + 1,
                       sleeps := st.sleeps + k } := by
  intro n
  induction n with
  | zero => intro k st hk _ _; omega
  | succ n ih =>
      intro k st hk H habort
      cases k with
      | zero =>
          have ho : outcome st.attempts = Outcome.authLost := by

            simpa using habort
          simp [sendInner, runAttempt, ho, bind, Except.bind, countOk, countFail, countO]
      | succ k =>
          have ha : outcome st.attempts ≠ Outcome.authLost := H st.attempts (by omega) (by omega)
          have hkn : k < n := by omega
          have hn : 0 < n := by omega
          have H' : ∀ j, st.attempts + 1 ≤ j → j < st.attempts + 1 + k →
              outcome j ≠ Outcome.authLost :=
            fun j hj hj' => H j (by omega) (by omega)
          have habort' : outcome (st.attempts + 1 + k) = Outcome.authLost := by
            have harg : st.attempts + 1 + k = st.attempts + (k + 1) := by omega
            rw [harg]
            exact habort
          cases ho : outcome st.attempts with
          | authLost => exact absurd ho ha
          | ok =>
              simp only [sendInner, runAttempt, ho, bind, Except.bind]
              rw [if_pos (Or.inl hn), ih k _ hkn H' habort']
              simp [countOk, countFail, countO, ho, okB, failB] <;> omega
          | transportFail =>
              simp only [sendInner, runAttempt, ho, bind, Except.bind]
              rw [if_pos (Or.inl hn), ih k _ hkn H' habort']
              simp [countOk, countFail, countO, ho, okB, failB] <;> omega

theorem sendOuter_no_auth (outcome : Nat → Outcome) (lastR : String) (rc : Nat) :
    ∀ (recipients : List String) (st : LoopState),
      (∀ j, st.attempts ≤ j → j < st.attempts + recipients.length * rc →
          outcome j ≠ Outcome.authLost) →
      sendOuter outcome lastR rc recipients st =
        Except.ok { sent := st.sent + countOk outcome st.attempts (recipients.length * rc),
                    failed := st.failed + countFail outcome st.attempts (recipients.length * rc),
                    attempts := st.attempts + recipients.length * rc,
                    sleeps := st.sleeps + outerSleeps lastR rc recipients } := by
  intro recipients
  induction recipients with
  | nil =>
      intro st _
      simp [sendOuter, countOk, countFail, countO, outerSleeps]
  | cons r rest ih =>
      intro st H
      have hlen : (r :: rest).length * rc = rc + rest.length * rc := by
        simp [List.length_cons]
        ring
      have Hr : ∀ j, st.attempts ≤ j → j < st.attempts + rc → outcome j ≠ Outcome.authLost :=
        fun j hj hj' => H j hj (by omega)
      have Hrest : ∀ j, st.attempts + rc ≤ j → j < st.attempts + rc + rest.length * rc →
          outcome j ≠ Outcome.authLost :=
        fun j hj hj' => H j (by omega) (by omega)
      simp only [sendOuter]
      rw [sendInner_no_auth outcome lastR r rc st Hr]
      simp only [bind, Except.bind]
      rw [ih _ Hrest]
      have hcntOk := countO_add okB outcome rc st.attempts (rest.length * rc)
      have hcntFail := countO_add failB outcome rc st.attempts (rest.length * rc)
      simp only [countOk, countFail, hlen, outerSleeps, hcntOk, hcntFail,
        Except.ok.injEq, LoopState.mk.injEq]
      refine ⟨by omega, by omega, by omega, by omega⟩

theorem sendOuter_auth_abort (outcome : Nat → Outcome) (lastR : String) (rc : Nat) :
    ∀ (recipients : List String) (k : Nat) (st : LoopState),
      k < recipients.length * rc →
      (∀ j, st.attempts ≤ j → j < st.attempts + k → outcome j ≠ Outcome.authLost) →
      outcome (st.attempts + k) = Outcome.authLost →
      ∃ sl, sendOuter outcome lastR rc recipients st =
        Except.error { sent := st.sent + countOk outcome st.attempts k,
                       failed := st.failed + countFail outcome st.attempts k,
                       attempts := st.attempts + k + 1,
                       sleeps := sl } := by
  intro recipients
  induction recipients with
  | nil =>
      intro k st hk _ _
      simp [List.length_nil] at hk
  | cons r rest ih =>
      intro k st hk H habort
      by_cases hkr : k < rc
      · refine ⟨st.sleeps + k, ?_⟩
        simp only [sendOuter]
        rw [sendInner_auth_abort outcome lastR r rc k st hkr H habort]
        rfl
      · push_neg at hkr
        have Hr : ∀ j, st.attempts ≤ j → j < st.attempts + rc → outcome j ≠ Outcome.authLost :=
          fun j hj hj' => H j hj (by omega)
        simp only [sendOuter]
        rw [sendInner_no_auth outcome lastR r rc st Hr]
        simp only [bind, Except.bind]
        have hk' : k - rc < rest.length * rc := by
          simp only [List.length_cons, Nat.succ_mul] at hk
          omega
        have Hrest : ∀ j, st.attempts + rc ≤ j → j < st.attempts + rc + (k - rc) →
            outcome j ≠ Outcome.authLost :=
          fun j hj hj' => H j (by omega) (by omega)
        have habort' : outcome (st.attempts + rc + (k - rc)) = Outcome.authLost := by
          have harg : st.attempts + rc + (k - rc) = st.attempts + k := by omega
          rw [harg]
          exact habort
        obtain ⟨sl, heq⟩ := ih (k - rc)
          { sent := st.sent + countOk outcome st.attempts rc
            failed := st.failed + countFail outcome st.attempts rc
            attempts := st.attempts + rc
            sleeps := st.sleeps + innerSleeps lastR r rc } hk' Hrest habort'
        refine ⟨sl, ?_⟩
        rw [heq]
        have hsOk : countO okB outcome st.attempts k
            = countO okB outcome st.attempts rc
              + countO okB outcome (st.attempts + rc) (k - rc) := by
          conv_lhs => rw [show k = rc + (k - rc) from by omega]
          exact countO_add okB outcome rc st.attempts (k - rc)
        have hsFail : countO failB outcome st.attempts k
            = countO failB outcome st.attempts rc
              + countO failB outcome (st.attempts + rc) (k - rc) := by
          conv_lhs => rw [show k = rc + (k - rc) from by omega]
          exact countO_add failB outcome rc st.attempts (k - rc)
        simp only [countOk, countFail, Except.error.injEq, LoopState.mk.injEq]
        refine ⟨by omega, by omega, by omega, trivial⟩

/-! Helper lemmas about the token store operations. -/

theorem cleanupExpired_sub (store : TokenStore) (now : Int) (k : String) (d : SessionData)
    (h : cleanupExpired store now k = some d) : store k = some d := by
  unfold cleanupExpired at h
  cases hs : store k with
  | none => rw [hs] at h; simp at h
  | some e =>
      rw [hs] at h
      by_cases he : e.expires_at < now
      · simp [he] at h
      · simp [he] at h
        rw [h]

theorem storeDelete_sub (store : TokenStore) (x k : String) (d : SessionData)
    (h : storeDelete store x k = some d) : store k = some d := by
  unfold storeDelete at h
  by_cases hk : k = x
  · simp [hk] at h
  · simpa [hk] using h

theorem validate_nonpos_rc (recipients : Sum String (List String)) (subject body : String)
    (rc : Int) (hrc : rc < 1) :
    ∃ m, validateSendRequest recipients subject body rc = Except.error m := by
  unfold validateSendRequest
  split_ifs <;> first
    | exact ⟨_, rfl⟩
    | omega

/-- Concrete identity cipher used to instantiate the parameterized theorems. -/
def idCipher : Cipher := ⟨fun s => s, fun s => s, fun _ => rfl⟩

/-- Concrete identity digest used to instantiate the parameterized theorems. -/
def idHash : String → String := fun s => s

/-- Concrete store holding one session whose `expires_at` is 3600. -/
def expiredStore : TokenStore :=
  fun k => if k = "tok" then some ⟨"e", "p", "smtp.gmail.com", 465, 0, 3600⟩ else none

/-! Claims. -/

/-- C1: for every credential pair accepted at issuance, resolving the returned
raw token before expiry returns exactly the original identity and secret,
unchanged, together with the relay host and port supplied at issuance: decrypt
after store round-trips the encrypted fields to the plaintexts given at
creation. -/
theorem issued_token_resolves_to_original_credentials
    (dbConnected sinkFails : Bool) (c : Cipher) (hashToken : String → String)
    (store : TokenStore) (req : AuthRequest) (token : String) (now now' : Int)
    (hfresh : ¬ (now + tokenExpiryDelta < now')) :
    (get_smtp_creds c hashToken
        (authenticate dbConnected sinkFails c hashToken store req .success token now).store
        token now').result =
      Except.ok ⟨req.email, req.password, req.smtp_host, req.smtp_port⟩ := by
  simp [authenticate, get_smtp_creds, cleanupExpired, storeInsert, hfresh, c.roundtrip]

/-- C1 witness: a concrete issuance followed by a resolution 10 seconds
later returns the request's credentials and relay endpoint. -/
theorem issued_token_resolves_to_original_credentials_witness :
    ¬ ((0 : Int) + tokenExpiryDelta < 10) ∧
    (get_smtp_creds idCipher idHash
        (authenticate true false idCipher idHash (fun _ => none)
          ⟨"user@example.com", "pw", "smtp.gmail.com", 465⟩ .success "tok" 0).store
        "tok" 10).result =
      Except.ok ⟨"user@example.com", "pw", "smtp.gmail.com", 465⟩ :=
  ⟨by decide,
   issued_token_resolves_to_original_credentials true false idCipher idHash (fun _ => none)
     ⟨"user@example.com", "pw", "smtp.gmail.com", 465⟩ "tok" 0 10 (by decide)⟩

/-- C2 counterexample: a stored session expired at the time of the call is
resolved to the 401 "Invalid or expired token" exception raised at the absent
branch — because the sweep at the top of `get_smtp_creds` already deleted the
entry — not to the 401 "Token expired" exception the claim requires; so the
claim "resolve returns TokenExpiredError, never InvalidTokenError" fails. -/
theorem expired_resolve_not_token_expired :
    expiredStore (idHash "tok") = some ⟨"e", "p", "smtp.gmail.com", 465, 0, 3600⟩ ∧
    ((3600 : Int) < 7200) ∧
    (get_smtp_creds idCipher idHash expiredStore "tok" 7200).result =
      Except.error ⟨401, "Invalid or expired token. Use /auth first."⟩ ∧
    (⟨401, "Invalid or expired token. Use /auth first."⟩ : HTTPException) ≠
      ⟨401, "Token expired. Re-authenticate."⟩ ∧
    (get_smtp_creds idCipher idHash expiredStore "tok" 7200).store (idHash "tok") = none :=
  ⟨rfl, by decide, rfl, by decide, rfl⟩

/-- C2 (amended): for every token whose session's `expires_at` lies in the
past at the time of the call, resolve never returns a decrypted session,
deletes the entry, and raises a 401 — but it is the "Invalid or expired
token" exception of the absent branch, because the sweep at the top of
`get_smtp_creds` removes the expired entry before the lookup; the dedicated
"Token expired" branch is not reached.  This holds even when no sweep has run
before the call. -/
theorem expired_token_deleted_and_rejected (c : Cipher) (hashToken : String → String)
    (store : TokenStore) (token : String) (now : Int) (d : SessionData)
    (hfound : store (hashToken token) = some d) (hexp : d.expires_at < now) :
    (get_smtp_creds c hashToken store token now).result =
      Except.error ⟨401, "Invalid or expired token. Use /auth first."⟩ ∧
    (get_smtp_creds c hashToken store token now).store (hashToken token) = none := by
  simp [get_smtp_creds, cleanupExpired, hfound, hexp]

/-- C2 witness: the amended claim evaluated on the concrete expired store. -/
theorem expired_token_deleted_and_rejected_witness :
    expiredStore (idHash "tok") = some ⟨"e", "p", "smtp.gmail.com", 465, 0, 3600⟩ ∧
    ((3600 : Int) < 9999) ∧
    (get_smtp_creds idCipher idHash expiredStore "tok" 9999).result =
      Except.error ⟨401, "Invalid or expired token. Use /auth first."⟩ ∧
    (get_smtp_creds idCipher idHash expiredStore "tok" 9999).store (idHash "tok") = none :=
  ⟨rfl, by decide,
   expired_token_deleted_and_rejected idCipher idHash expiredStore "tok" 9999
     ⟨"e", "p", "smtp.gmail.com", 465, 0, 3600⟩ rfl (by decide)⟩

/-- C3: in every dispatch batch where some delivery attempt raises an SMTP
authentication failure (attempt `k`, zero-based, the first such attempt), the
engine makes no further delivery attempts (`attempts = k + 1`), the successes
made before the abort stand in the `sent` counter and are not reported as
failed (`failed` counts only the prior transient failures), and the caller
receives the 401 authorization error instead of a summary object. -/
theorem dispatch_aborts_on_authorization_loss (dbConnected sinkFails : Bool)
    (outcome : Nat → Outcome) (recipients : List String) (rc k : Nat)
    (hk : k < recipients.length * rc)
    (hfirst : ∀ j, j < k → outcome j ≠ Outcome.authLost)
    (habort : outcome k = Outcome.authLost) :
    isAborted (runSend outcome recipients rc) = true ∧
    (loopResult (runSend outcome recipients rc)).attempts = k + 1 ∧
    (loopResult (runSend outcome recipients rc)).sent = countOk outcome 0 k ∧
    (loopResult (runSend outcome recipients rc)).failed = countFail outcome 0 k ∧
    (sendEndpoint dbConnected sinkFails outcome recipients rc).1 =
      Except.error ⟨401, "SMTP authentication failed. Your token may be invalid."⟩ := by
  have H0 : ∀ j, initState.attempts ≤ j → j < initState.attempts + k →
      outcome j ≠ Outcome.authLost :=
    fun j hj hj' => hfirst j (by simpa [initState] using hj')
  have habort0 : outcome (initState.attempts + k) = Outcome.authLost := by
    simpa [initState] using habort
  obtain ⟨sl, heq⟩ := sendOuter_auth_abort outcome (lastRecipient recipients) rc
    recipients k initState hk H0 habort0
  have hrun : runSend outcome recipients rc =
      Except.error { sent := countOk outcome 0 k, failed := countFail outcome 0 k,
                     attempts := k + 1, sleeps := sl } := by
    simp only [runSend]
    rw [heq]
    simp [initState]
  rw [hrun]
  refine ⟨rfl, rfl, rfl, rfl, ?_⟩
  simp [sendEndpoint, hrun]

/-- C3 witness: the spec's instance — credential rejected on attempt 2 of 6
over recipients [a, b] with repeat count 3: one prior success counted, no
further attempts, and the 401 surfaced. -/
theorem dispatch_aborts_on_authorization_loss_witness :
    (1 < (["a", "b"] : List String).length * 3) ∧
    (isAborted (runSend (fun j => if j = 1 then Outcome.authLost else Outcome.ok)
        ["a", "b"] 3) = true ∧
     (loopResult (runSend (fun j => if j = 1 then Outcome.authLost else Outcome.ok)
        ["a", "b"] 3)).attempts = 1 + 1 ∧
     (loopResult (runSend (fun j => if j = 1 then Outcome.authLost else Outcome.ok)
        ["a", "b"] 3)).sent =
        countOk (fun j => if j = 1 then Outcome.authLost else Outcome.ok) 0 1 ∧
     (loopResult (runSend (fun j => if j = 1 then Outcome.authLost else Outcome.ok)
        ["a", "b"] 3)).failed =
        countFail (fun j => if j = 1 then Outcome.authLost else Outcome.ok) 0 1 ∧
     (sendEndpoint true false (fun j => if j = 1 then Outcome.authLost else Outcome.ok)
        ["a", "b"] 3).1 =
        Except.error ⟨401, "SMTP authentication failed. Your token may be invalid."⟩) :=
  ⟨by decide,
   dispatch_aborts_on_authorization_loss true false
     (fun j => if j = 1 then Outcome.authLost else Outcome.ok) ["a", "b"] 3 1
     (by decide) (by decide) (by decide)⟩

/-- C4: every dispatch batch in which all delivery attempts succeed returns
sent = |recipients| * repeatCount, failed = 0, success = true. -/
theorem dispatch_all_success (dbConnected sinkFails : Bool) (outcome : Nat → Outcome)
    (recipients : List String) (rc : Nat)
    (hall : ∀ j, j < recipients.length * rc → outcome j = Outcome.ok) :
    (sendEndpoint dbConnected sinkFails outcome recipients rc).1 =
      Except.ok { sent := recipients.length * rc, failed := 0, success := true,
                  message := sendMessage (recipients.length * rc) 0 } := by
  have Hna : ∀ j, initState.attempts ≤ j →
      j < initState.attempts + recipients.length * rc → outcome j ≠ Outcome.authLost := by
    intro j hj hj'
    have hjo : outcome j = Outcome.ok := hall j (by simpa [initState] using hj')
    simp [hjo]
  have heq := sendOuter_no_auth outcome (lastRecipient recipients) rc recipients initState Hna
  obtain ⟨hok, hfail⟩ := countO_all_ok outcome (recipients.length * rc) 0
    (fun j hj hj' => hall j (by omega))
  have hrun : runSend outcome recipients rc =
      Except.ok { sent := recipients.length * rc, failed := 0,
                  attempts := recipients.length * rc,
                  sleeps := outerSleeps (lastRecipient recipients) rc recipients } := by
    simp only [runSend]
    rw [heq]
    simp [initState, countOk, countFail, hok, hfail]
  simp [sendEndpoint, hrun, sendResponseOf]

/-- C4 witness: the spec's instance — recipients [a, b], repeat count 3,
always-succeeding transport: sent = 6, failed = 0, success = true. -/
theorem dispatch_all_success_witness :
    (∀ j, j < (["a", "b"] : List String).length * 3 →
        (fun _ => Outcome.ok) j = Outcome.ok) ∧
    (sendEndpoint true false (fun _ => Outcome.ok) ["a", "b"] 3).1 =
      Except.ok { sent := 6, failed := 0, success := true,
                  message := "Sent 6/6 emails successfully." } :=
  ⟨fun _ _ => rfl,
   dispatch_all_success true false (fun _ => Outcome.ok) ["a", "b"] 3 (fun _ _ => rfl)⟩

/-- C5: in every dispatch batch whose attempts never lose authorization,
transient failures only increment the failure counter and the loop continues:
all |recipients| * repeatCount attempts execute, sent counts the successes,
failed counts the transient failures, sent + failed equals the total number
of attempts, and the summary has success = (failed == 0). -/
theorem dispatch_transient_failures_continue (dbConnected sinkFails : Bool)
    (outcome : Nat → Outcome) (recipients : List String) (rc : Nat)
    (hnoauth : ∀ j, j < recipients.length * rc → outcome j ≠ Outcome.authLost) :
    runSend outcome recipients rc =
      Except.ok { sent := countOk outcome 0 (recipients.length * rc),
                  failed := countFail outcome 0 (recipients.length * rc),
                  attempts := recipients.length * rc,
                  sleeps := outerSleeps (lastRecipient recipients) rc recipients } ∧
    countOk outcome 0 (recipients.length * rc)
        + countFail outcome 0 (recipients.length * rc) = recipients.length * rc ∧
    (sendEndpoint dbConnected sinkFails outcome recipients rc).1 =
      Except.ok { sent := countOk outcome 0 (recipients.length * rc),
                  failed := countFail outcome 0 (recipients.length * rc),
                  success := countFail outcome 0 (recipients.length * rc) == 0,
                  message := sendMessage (countOk outcome 0 (recipients.length * rc))
                    (countFail outcome 0 (recipients.length * rc)) } := by
  have Hna : ∀ j, initState.attempts ≤ j →
      j < initState.attempts + recipients.length * rc → outcome j ≠ Outcome.authLost :=
    fun j hj hj' => hnoauth j (by simpa [initState] using hj')
  have heq := sendOuter_no_auth outcome (lastRecipient recipients) rc recipients initState Hna
  have hrun : runSend outcome recipients rc =
      Except.ok { sent := countOk outcome 0 (recipients.length * rc),
                  failed := countFail outcome 0 (recipients.length * rc),
                  attempts := recipients.length * rc,
                  sleeps := outerSleeps (lastRecipient recipients) rc recipients } := by
    simp only [runSend]
    rw [heq]
    simp [initState]
  have hsum := countO_ok_fail_total outcome (recipients.length * rc) 0
    (fun j hj hj' => hnoauth j (by omega))
  refine ⟨hrun, hsum, ?_⟩
  simp [sendEndpoint, hrun, sendResponseOf, countOk, countFail]

/-- C5 witness: the spec's instance — transport fails transiently on attempt
4 of 6 (index 3): all 6 attempts execute and the summary is sent = 5,
failed = 1, success = false. -/
theorem dispatch_transient_failures_continue_witness :
    (∀ j, j < (["a", "b"] : List String).length * 3 →
        (fun i => if i = 3 then Outcome.transportFail else Outcome.ok) j
          ≠ Outcome.authLost) ∧
    runSend (fun i => if i = 3 then Outcome.transportFail else Outcome.ok) ["a", "b"] 3 =
      Except.ok { sent := 5, failed := 1, attempts := 6, sleeps := 5 } ∧
    (5 + 1 : Nat) = 6 ∧
    (sendEndpoint true false (fun i => if i = 3 then Outcome.transportFail else Outcome.ok)
        ["a", "b"] 3).1 =
      Except.ok { sent := 5, failed := 1, success := false,
                  message := "Sent 5/6 emails successfully." } :=
  ⟨by decide,
   dispatch_transient_failures_continue true false
     (fun i => if i = 3 then Outcome.transportFail else Outcome.ok) ["a", "b"] 3 (by decide)⟩

/-- C6 counterexample: a dispatch request with an empty recipient list is NOT
rejected as a validation error — the pydantic model puts no minimum length on
the list, so the request passes validation and the loop body never runs,
returning the summary sent = 0, failed = 0, success = true with no transport
activity. -/
theorem empty_recipients_accepted_counterexample :
    dispatch true false (fun _ => Outcome.ok) (Sum.inr []) "s" "b" 1
      = Except.ok (Except.ok { sent := 0, failed := 0, success := true,
                               message := "Sent 0/0 emails successfully." }, []) ∧
    isValidationError (dispatch true false (fun _ => Outcome.ok) (Sum.inr []) "s" "b" 1)
      = false :=
  ⟨rfl, rfl⟩

/-- C6 (amended): a dispatch request with repeatCount 0 or negative is
rejected as a validation error before any transport activity (the result does
not depend on the transport at all); a request with an empty recipient list,
however, passes validation and yields the empty summary sent = 0, failed = 0,
success = true, also without any transport activity. -/
theorem nonpositive_repeat_rejected_before_transport :
    (∀ (dbConnected sinkFails : Bool) (outcome outcome' : Nat → Outcome)
        (recipients : Sum String (List String)) (subject body : String) (rc : Int),
      rc ≤ 0 →
      isValidationError (dispatch dbConnected sinkFails outcome recipients subject body rc)
          = true ∧
      dispatch dbConnected sinkFails outcome recipients subject body rc
          = dispatch dbConnected sinkFails outcome' recipients subject body rc) ∧
    (∀ (dbConnected sinkFails : Bool) (outcome : Nat → Outcome) (subject body : String)
        (rc : Int),
      1 ≤ subject.length → subject.length ≤ 998 → 1 ≤ body.length → 1 ≤ rc → rc ≤ 50 →
      dispatch dbConnected sinkFails outcome (Sum.inr []) subject body rc
        = Except.ok (Except.ok { sent := 0, failed := 0, success := true,
                                 message := sendMessage 0 0 }, [])) := by
  constructor
  · intro db sf o o' recs s b rc hrc
    obtain ⟨m, hm⟩ := validate_nonpos_rc recs s b rc (by omega)
    constructor
    · simp [dispatch, hm, isValidationError, Except.map]
    · simp [dispatch, hm, Except.map]
  · intro db sf o s b rc h1 h2 h3 h4 h5
    have hv : validateSendRequest (Sum.inr []) s b rc
        = Except.ok ⟨[], s, b, rc.toNat⟩ := by
      unfold validateSendRequest
      rw [if_neg (by omega), if_neg (by omega), if_neg (by omega),
          if_neg (by omega), if_neg (by omega)]
      rfl
    simp [dispatch, hv, Except.map, sendEndpoint, runSend, sendOuter, initState,
      sendResponseOf, sendMessage]

/-- C6 witness: repeatCount 0 is rejected before the transport is consulted,
and the empty-recipient request produces the empty summary. -/
theorem nonpositive_repeat_rejected_before_transport_witness :
    isValidationError (dispatch true false (fun _ => Outcome.ok) (Sum.inr ["a"]) "s" "b" 0)
        = true ∧
    dispatch true false (fun _ => Outcome.ok) (Sum.inr ["a"]) "s" "b" (-3)
        = dispatch true false (fun _ => Outcome.transportFail) (Sum.inr ["a"]) "s" "b" (-3) ∧
    dispatch true false (fun _ => Outcome.ok) (Sum.inr []) "x" "y" 2
        = Except.ok (Except.ok { sent := 0, failed := 0, success := true,
                                 message := sendMessage 0 0 }, []) :=
  ⟨(nonpositive_repeat_rejected_before_transport.1 true false (fun _ => Outcome.ok)
      (fun _ => Outcome.ok) (Sum.inr ["a"]) "s" "b" 0 (by decide)).1,
   (nonpositive_repeat_rejected_before_transport.1 true false (fun _ => Outcome.ok)
      (fun _ => Outcome.transportFail) (Sum.inr ["a"]) "s" "b" (-3) (by decide)).2,
   nonpositive_repeat_rejected_before_transport.2 true false (fun _ => Outcome.ok)
     "x" "y" 2 (by decide) (by decide) (by decide) (by decide) (by decide)⟩

/-- C7 counterexample: with the duplicate recipient list [a, a] and repeat
count 1 every attempt succeeds, 2 attempts are made, but 0 pacing delays
occur — not attempts - 1 = 1 — because the guard compares the current
recipient with recipients[-1] by value, so the first occurrence of the last
recipient also skips its final delay. -/
theorem pacing_delay_duplicate_counterexample :
    runSend (fun _ => Outcome.ok) ["a", "a"] 1 =
      Except.ok { sent := 2, failed := 0, attempts := 2, sleeps := 0 } ∧
    ¬ ((0 : Nat) = 2 - 1) :=
  ⟨rfl, by decide⟩

/-- C7 (amended): in every completed batch (no authorization loss) with
repeatCount at least 1, a pacing delay follows every attempt except the final
repetition of each occurrence of a recipient equal by value to the last
recipient: the number of delays is attempts - (occurrences of the last
recipient), which equals attempts - 1 exactly when the last recipient occurs
only once in the list. -/
theorem pacing_delays_completed_batch (outcome : Nat → Outcome)
    (recipients : List String) (rc : Nat)
    (hnoauth : ∀ j, j < recipients.length * rc → outcome j ≠ Outcome.authLost)
    (hrc : 1 ≤ rc) :
    isAborted (runSend outcome recipients rc) = false ∧
    (loopResult (runSend outcome recipients rc)).attempts = recipients.length * rc ∧
    (loopResult (runSend outcome recipients rc)).sleeps
        = recipients.length * rc - occCount (lastRecipient recipients) recipients ∧
    (occCount (lastRecipient recipients) recipients = 1 →
      (loopResult (runSend outcome recipients rc)).sleeps
        = recipients.length * rc - 1) := by
  have Hna : ∀ j, initState.attempts ≤ j →
      j < initState.attempts + recipients.length * rc → outcome j ≠ Outcome.authLost :=
    fun j hj hj' => hnoauth j (by simpa [initState] using hj')
  have heq := sendOuter_no_auth outcome (lastRecipient recipients) rc recipients initState Hna
  have hrun : runSend outcome recipients rc =
      Except.ok { sent := countOk outcome 0 (recipients.length * rc),
                  failed := countFail outcome 0 (recipients.length * rc),
                  attempts := recipients.length * rc,
                  sleeps := outerSleeps (lastRecipient recipients) rc recipients } := by
    simp only [runSend]
    rw [heq]
    simp [initState]
  rw [hrun]
  have hsleeps := outerSleeps_eq (lastRecipient recipients) rc hrc recipients
  refine ⟨rfl, rfl, by simpa [loopResult] using hsleeps, ?_⟩
  intro hocc
  simp [loopResult, hsleeps, hocc]

/-- C7 witness: the amended count on a batch whose last recipient occurs
once — recipients [a, b], repeat count 3, all attempts succeeding: 6 attempts
and 5 delays. -/
theorem pacing_delays_completed_batch_witness :
    (∀ j, j < (["a", "b"] : List String).length * 3 →
        (fun _ => Outcome.ok) j ≠ Outcome.authLost) ∧
    (1 ≤ 3) ∧
    (isAborted (runSend (fun _ => Outcome.ok) ["a", "b"] 3) = false ∧
     (loopResult (runSend (fun _ => Outcome.ok) ["a", "b"] 3)).attempts = 6 ∧
     (loopResult (runSend (fun _ => Outcome.ok) ["a", "b"] 3)).sleeps = 6 - 1 ∧
     (occCount (lastRecipient ["a", "b"]) ["a", "b"] = 1 →
       (loopResult (runSend (fun _ => Outcome.ok) ["a", "b"] 3)).sleeps = 6 - 1)) :=
  ⟨by decide, by decide,
   pacing_delays_completed_batch (fun _ => Outcome.ok) ["a", "b"] 3 (by decide) (by decide)⟩

/-- C8: every session created at issuance has expires_at = created_at plus
the fixed process-wide TTL (one hour), with the relay host and port equal to
those supplied at issuance; issuance touches no other entry, and resolution
(including its sweep and lazy deletion) never modifies a surviving entry —
entries are only ever deleted, so a session's fields are never modified for
its whole life. -/
theorem session_expiry_and_relay_binding
    (dbConnected sinkFails : Bool) (c : Cipher) (hashToken : String → String)
    (store : TokenStore) (req : AuthRequest) (token : String) (now : Int) :
    ((authenticate dbConnected sinkFails c hashToken store req .success token now).store
        (hashToken token) =
      some { email := c.encrypt req.email, password := c.encrypt req.password,
             smtp_host := req.smtp_host, smtp_port := req.smtp_port,
             created_at := now, expires_at := now + tokenExpiryDelta }) ∧
    (∀ k, k ≠ hashToken token →
      (authenticate dbConnected sinkFails c hashToken store req .success token now).store k
        = store k) ∧
    (∀ (store' : TokenStore) (tok : String) (now' : Int) (k : String) (d : SessionData),
      (get_smtp_creds c hashToken store' tok now').store k = some d → store' k = some d) := by
  refine ⟨?_, ?_, ?_⟩
  · simp [authenticate, storeInsert]
  · intro k hk
    simp [authenticate, storeInsert, hk]
  · intro store' tok now' k d h
    simp only [get_smtp_creds] at h
    split at h
    · exact cleanupExpired_sub store' now' k d h
    · split at h
      · exact cleanupExpired_sub store' now' k d
          (storeDelete_sub (cleanupExpired store' now') (hashToken tok) k d h)
      · exact cleanupExpired_sub store' now' k d h

/-- C8 witness: a concrete issuance stores exactly the supplied relay
endpoint with expires_at = created_at + 3600, other keys are untouched, and a
concrete resolution leaves a surviving entry equal to what was stored. -/
theorem session_expiry_and_relay_binding_witness :
    ((authenticate true false idCipher idHash (fun _ => none)
        ⟨"user@example.com", "pw", "relay.example.com", 2525⟩ .success "tok" 100).store
        (idHash "tok") =
      some { email := "user@example.com", password := "pw",
             smtp_host := "relay.example.com", smtp_port := 2525,
             created_at := 100, expires_at := 100 + tokenExpiryDelta }) ∧
    ((authenticate true false idCipher idHash (fun _ => none)
        ⟨"user@example.com", "pw", "relay.example.com", 2525⟩ .success "tok" 100).store
        "other" = none) ∧
    expiredStore "tok" = some ⟨"e", "p", "smtp.gmail.com", 465, 0, 3600⟩ :=
  ⟨(session_expiry_and_relay_binding true false idCipher idHash (fun _ => none)
      ⟨"user@example.com", "pw", "relay.example.com", 2525⟩ "tok" 100).1,
   (session_expiry_and_relay_binding true false idCipher idHash (fun _ => none)
      ⟨"user@example.com", "pw", "relay.example.com", 2525⟩ "tok" 100).2.1
     "other" (by decide),
   (session_expiry_and_relay_binding true false idCipher idHash expiredStore
      ⟨"user@example.com", "pw", "relay.example.com", 2525⟩ "tok" 100).2.2
     expiredStore "tok" 100 "tok" ⟨"e", "p", "smtp.gmail.com", 465, 0, 3600⟩ rfl⟩

/-- C9: a failure of the metrics sink is swallowed and never changes a core
operation's result: the issuance response and the resulting store are
identical whether or not the sink raises (and a successful login still
returns the token), and the dispatch response is identical whether or not the
sink raises. -/
theorem metrics_failures_never_change_results
    (dbConnected : Bool) (c : Cipher) (hashToken : String → String) (store : TokenStore)
    (req : AuthRequest) (login : LoginResult) (token : String) (now : Int)
    (outcome : Nat → Outcome) (recipients : List String) (rc : Nat) :
    (∀ sinkFails sinkFails' : Bool,
      (authenticate dbConnected sinkFails c hashToken store req login token now).response
        = (authenticate dbConnected sinkFails' c hashToken store req login token now).response) ∧
    (∀ (sinkFails sinkFails' : Bool) (k : String),
      (authenticate dbConnected sinkFails c hashToken store req login token now).store k
        = (authenticate dbConnected sinkFails' c hashToken store req login token now).store k) ∧
    ((authenticate dbConnected true c hashToken store req .success token now).response
        = Except.ok ⟨token, TOKEN_EXPIRY_HOURS,
            "Authentication successful. Use this token in X-Token header."⟩) ∧
    (∀ sinkFails sinkFails' : Bool,
      (sendEndpoint dbConnected sinkFails outcome recipients rc).1
        = (sendEndpoint dbConnected sinkFails' outcome recipients rc).1) := by
  refine ⟨?_, ?_, rfl, ?_⟩
  · intro sf sf'
    cases login <;> rfl
  · intro sf sf' k
    cases login <;> rfl
  · intro sf sf'
    cases hr : runSend outcome recipients rc <;> simp [sendEndpoint, hr]

/-- C10: a dispatch request whose recipients field is a single address string
e is normalized to the one-element list [e] before processing, so its result
is identical to that of the same request with recipients = [e]. -/
theorem single_recipient_normalized (dbConnected sinkFails : Bool) (outcome : Nat → Outcome)
    (e subject body : String) (repeat_count : Int) :
    normalize_recipients (Sum.inl e) = [e] ∧
    dispatch dbConnected sinkFails outcome (Sum.inl e) subject body repeat_count
      = dispatch dbConnected sinkFails outcome (Sum.inr [e]) subject body repeat_count :=
  ⟨rfl, rfl⟩

end Emailer
